import Mathlib

/-!
Verification of the goals-todo web client (goals, todos, daily activity logs).

The development shallowly embeds the pieces of the TypeScript source that the
specification's claims are about:

* `src/lib/goalProgress.ts` — `buildGoalProgressMap`, the pure goal-progress
  aggregator.  JavaScript plain objects used as string-keyed records are
  embedded as association lists (`List (String × _)`) with JS property
  semantics: assigning to an existing key overwrites in place, assigning to a
  fresh key appends, and key enumeration follows insertion order.
* `src/lib/firestore.ts` — `updateGoalProgress`, whose clamping of the percent
  is modelled on the value written to the goal document.
* `src/hooks/useTodos.ts`, `src/hooks/useGoals.ts`,
  `src/hooks/useDailyTracker.ts` — the optimistic-mutation handlers
  (`onMutate` / `onError` / `onSuccess`) of each react-query mutation, embedded
  as pure cache transformers.  The react-query cache for a collection is
  `Option (List _)`: `none` is an unpopulated cache (JS `undefined`), and a
  `setQueryData` updater that returns `undefined` leaves the cache unchanged.
* `src/pages/DailyTrackerPage.tsx` — `handleAddLog`, the client-side validation
  in front of the add-daily-log mutation.

JavaScript numbers that the code only ever treats as non-negative integers
(counts, rounded percentages) are embedded as `Nat`; values that may carry
fractions or arbitrary user input are embedded as `ℚ`, with a separate
`JSNum` type where the code explicitly guards against `NaN`/infinities.
JS string truthiness (`!s` is true for `undefined` and for `""`) is embedded
explicitly wherever the source relies on it.
-/

namespace GoalsTodoApp

/-- `Goal` record from `src/types` as used by the embedded code:
`{id, title, currentPercent, createdAt}`.  `createdAt` timestamps are opaque
to all verified code paths and are embedded as `Nat`. -/
structure Goal where
  id : String
  title : String
  currentPercent : ℚ
  createdAt : Nat
deriving DecidableEq

/-- `Todo` record: `{id, title, isDone, goalId?, createdAt}`.  The optional
`goalId` is `Option String`; `none` is the absent (JS `undefined`) field. -/
structure Todo where
  id : String
  title : String
  isDone : Bool
  goalId : Option String
  createdAt : Nat
deriving DecidableEq

/-- Per-goal aggregation entry `{total, done, percent}` from
`src/lib/goalProgress.ts`. -/
structure GoalProgress where
  total : Nat
  done : Nat
  percent : Nat
deriving DecidableEq

/-- `DailyLog` record: `{id, activityId, activityName, date, durationMinutes,
notes?, createdAt}`.  `durationMinutes` is an arbitrary JS number in the data
model, embedded as `ℚ`. -/
structure DailyLog where
  id : String
  activityId : String
  activityName : String
  date : String
  durationMinutes : ℚ
  notes : Option String
  createdAt : Nat
deriving DecidableEq

/-! ### JS plain objects as string-keyed records

`Record<string, α>` is an association list.  `setKey` is property assignment
(`obj[k] = v`): it overwrites every entry already carrying the key in place,
otherwise appends a fresh entry.  `getKey` is property read (`obj[k]`),
returning `none` for a missing key (JS `undefined`). -/

def setKey {α : Type} (m : List (String × α)) (k : String) (v : α) :
    List (String × α) :=
  if m.any (fun p => p.1 == k) then
    m.map (fun p => if p.1 == k then (k, v) else p)
  else
    m ++ [(k, v)]

def getKey {α : Type} (m : List (String × α)) (k : String) : Option α :=
  (m.find? (fun p => p.1 == k)).map Prod.snd

/-- JS string-option truthiness test: `!x` on `string | undefined` is `true`
exactly for `undefined` and for the empty string.  This is the guard
`if (!todo.goalId) return;` in `buildGoalProgressMap`. -/
def isFalsyId : Option String → Bool
  | none => true
  | some s => s == ""

/-- `⌊log₂ n⌋` by repeated halving on explicit fuel (so that the kernel can
evaluate it; the fuel `n` always suffices). -/
def natLog2Fuel : Nat → Nat → Nat
  | 0, _ => 0
  | fuel + 1, n => if n < 2 then 0 else natLog2Fuel fuel (n / 2) + 1

/-- `⌊log₂ n⌋` for `n ≥ 1` (and `0` at `0`). -/
def natLog2 (n : Nat) : Nat :=
  natLog2Fuel n n

/-- Round the non-negative quotient `a / b` to the nearest integer with ties
to even — the IEEE 754 default rounding.  The fractional part `(a % b) / b`
is compared with `1/2` by comparing `2 * (a % b)` with `b`. -/
def rneDiv (a b : Nat) : Nat :=
  let n := a / b
  let r := a % b
  if 2 * r < b then n
  else if b < 2 * r then n + 1
  else if n % 2 = 0 then n else n + 1

/-- `⌊log₂ (a / b)⌋` for positive naturals: the difference of the integer
logs, corrected by one exact comparison (`2^k ≤ a/b` iff
`b * 2^max(k,0) ≤ a * 2^max(-k,0)`). -/
def ratLog2 (a b : Nat) : ℤ :=
  let k : ℤ := (natLog2 a : ℤ) - (natLog2 b : ℤ)
  if b * 2 ^ k.toNat ≤ a * 2 ^ (-k).toNat then k else k - 1

/-- The IEEE binary64 value nearest to `a / b` (`a, b` naturals, as produced
by the exact integer counts this code divides), returned as a
significand/exponent pair `(m, e)` denoting the exact rational `m * 2^e`:
the exponent is `⌊log₂(a/b)⌋ - 52` (53-bit significand), floored at `-1074`
(subnormal spacing), and the significand is the quotient rounded to nearest
with ties to even.  Overflow to infinity is outside the embedding; every
value the embedded code rounds is at most a few hundred. -/
def fl64 (a b : Nat) : Nat × ℤ :=
  let e : ℤ := max (ratLog2 a b - 52) (-1074)
  (rneDiv (a * 2 ^ (-e).toNat) (b * 2 ^ e.toNat), e)

/-- ECMAScript `Math.round` on the non-negative double `m * 2^e`: the closest
integral value with ties toward +∞, i.e. `⌊m * 2^e + 1/2⌋`, computed exactly
on the dyadic: for `e < 0` this is `(2*m + 2^(-e)) / 2^(1-e)` in natural
division. -/
def mathRoundDyadic (m : Nat) (e : ℤ) : Nat :=
  if 0 ≤ e then m * 2 ^ e.toNat
  else (2 * m + 2 ^ (-e).toNat) / 2 ^ ((-e).toNat + 1)

/-- `Math.round((done / total) * 100)` exactly as the program's IEEE binary64
arithmetic evaluates it: the division `done / total` is correctly rounded to
binary64 (`fl64`, the counts themselves being exact doubles), the product
with the exact double `100` is correctly rounded again (its exponent is
`⌊log₂⌋` of the exact product, i.e. `natLog2` of the integer `m * 100` plus
the carried exponent), and `Math.round` is applied to the exact value of the
resulting double.  This differs from exact half-up rounding of
`100*done/total`: at `done = 23, total = 40` the double product is just
below `57.5`, so the program computes `57` where exact rounding yields `58`.
The `total = 0` branch is never reached (all call sites guard it). -/
def jsRound100 (done total : Nat) : Nat :=
  if total = 0 then 0
  else
    let p := fl64 done total
    let M := p.1 * 100
    if M = 0 then 0
    else
      let e2 : ℤ := max ((natLog2 M : ℤ) + p.2 - 52) (-1074)
      let m2 := rneDiv (M * 2 ^ (p.2 - e2).toNat) (2 ^ (e2 - p.2).toNat)
      mathRoundDyadic m2 e2

/-- The entry every goal id is initialised with: `{ total: 0, done: 0,
percent: 0 }`. -/
def emptyProgress : GoalProgress := ⟨0, 0, 0⟩

/-- First loop of `buildGoalProgressMap`:
`goals.forEach(goal => progressMap[goal.id] = {total:0, done:0, percent:0})`. -/
def initProgressMap (goals : List Goal) : List (String × GoalProgress) :=
  goals.foldl (fun m g => setKey m g.id emptyProgress) []

/-- Body of the second loop of `buildGoalProgressMap` for one todo:
skip a falsy `goalId`, skip a `goalId` with no entry, otherwise increment
`total` and, when `isDone`, `done` of that entry. -/
def countTodo (m : List (String × GoalProgress)) (todo : Todo) :
    List (String × GoalProgress) :=
  if isFalsyId todo.goalId then m
  else
    match todo.goalId with
    | none => m
    | some gid =>
      match getKey m gid with
      | none => m
      | some entry =>
        setKey m gid
          { entry with
            total := entry.total + 1
            done := if todo.isDone then entry.done + 1 else entry.done }

/-- Third loop of `buildGoalProgressMap`: set `percent` to `0` when `total`
is `0`, else to `Math.round((done / total) * 100)`. -/
def finalizeEntry (e : GoalProgress) : GoalProgress :=
  if e.total = 0 then { e with percent := 0 }
  else { e with percent := jsRound100 e.done e.total }

/-- `buildGoalProgressMap(goals, todos)` from `src/lib/goalProgress.ts`:
initialise an entry per goal id, count each todo into its goal's entry,
then fill in each entry's percent. -/
def buildGoalProgressMap (goals : List Goal) (todos : List Todo) :
    List (String × GoalProgress) :=
  ((todos.foldl countTodo (initProgressMap goals)).map
    (fun p => (p.1, finalizeEntry p.2)))

/-! ### Canonical form of the progress map

The proofs below characterise `buildGoalProgressMap` as a map over the
first-occurrence deduplication of the goal-id list, with each key's value a
pair of todo counts.  These definitions are proof artefacts, not embeddings. -/

/-- Insert a key at the end unless already present (JS object key creation
order). -/
def insKey (ks : List String) (k : String) : List String :=
  if k ∈ ks then ks else ks ++ [k]

/-- The key enumeration a JS object acquires from assigning the ids in order:
first-occurrence deduplication. -/
def jsKeys (ids : List String) : List String :=
  ids.foldl insKey []

/-- The todos counted into the entry of key `k`: `goalId` present, equal to
`k`, and not falsy (so `k ≠ ""`). -/
def matchKey (k : String) (t : Todo) : Bool :=
  t.goalId == some k && !(k == "")

def totalCount (k : String) (todos : List Todo) : Nat :=
  todos.countP (matchKey k)

def doneCount (k : String) (todos : List Todo) : Nat :=
  todos.countP (fun t => matchKey k t && t.isDone)

/-- The entry of key `k` after the counting loop. -/
def entryFor (k : String) (todos : List Todo) : GoalProgress :=
  ⟨totalCount k todos, doneCount k todos, 0⟩

/-- The in-place update `countTodo` performs on the entry of the matched
key. -/
def bumpEntry (t : Todo) (e : GoalProgress) : GoalProgress :=
  { e with
    total := e.total + 1
    done := if t.isDone then e.done + 1 else e.done }

/-- Adding the counts of a whole todo list onto an entry. -/
def addCounts (k : String) (todos : List Todo) (e : GoalProgress) :
    GoalProgress :=
  { e with
    total := e.total + totalCount k todos
    done := e.done + doneCount k todos }

theorem any_map_key {α : Type} (ks : List String) (g : String → α)
    (k : String) :
    ((ks.map (fun x => (x, g x))).any (fun p => p.1 == k)) = true ↔ k ∈ ks := by
  induction ks with
  | nil => simp
  | cons a ks ih =>
    simp only [List.map_cons, List.any_cons, Bool.or_eq_true, ih, beq_iff_eq,
      List.mem_cons]
    constructor
    · rintro (h | h)
      · exact Or.inl h.symm
      · exact Or.inr h
    · rintro (h | h)
      · exact Or.inl h.symm
      · exact Or.inr h

theorem setKey_const {α : Type} (ks : List String) (k : String) (c : α) :
    setKey (ks.map (fun x => (x, c))) k c = (insKey ks k).map (fun x => (x, c)) := by
  unfold setKey insKey
  by_cases h : k ∈ ks
  · rw [if_pos ((any_map_key ks (fun _ => c) k).mpr h), if_pos h, List.map_map]
    refine List.map_congr_left ?_
    intro x _
    by_cases hx : x = k
    · subst hx; simp
    · simp [hx]
  · rw [if_neg (fun hc => h ((any_map_key ks (fun _ => c) k).mp hc)), if_neg h]
    simp

theorem getKey_map_fun {α : Type} (ks : List String) (g : String → α)
    (k : String) :
    getKey (ks.map (fun x => (x, g x))) k =
      if k ∈ ks then some (g k) else none := by
  induction ks with
  | nil => simp [getKey]
  | cons a ks ih =>
    by_cases h : a = k
    · subst h
      simp [getKey, List.find?_cons]
    · simp only [getKey, List.map_cons, List.find?_cons] at ih ⊢
      have hbeq : (a == k) = false := by simp [h]
      simp only [hbeq]
      rw [ih]
      simp [Ne.symm h]

theorem initProgressMap_aux (gs : List Goal) (ks : List String) :
    gs.foldl (fun m g => setKey m g.id emptyProgress)
        (ks.map (fun k => (k, emptyProgress))) =
      ((gs.map Goal.id).foldl insKey ks).map (fun k => (k, emptyProgress)) := by
  induction gs generalizing ks with
  | nil => simp
  | cons g gs ih =>
    simp only [List.foldl_cons, List.map_cons]
    rw [setKey_const, ih]

theorem initProgressMap_eq (goals : List Goal) :
    initProgressMap goals =
      (jsKeys (goals.map Goal.id)).map (fun k => (k, emptyProgress)) := by
  have h := initProgressMap_aux goals []
  simpa [initProgressMap, jsKeys] using h

theorem matchKey_false_of_falsy (t : Todo) (h : isFalsyId t.goalId = true)
    (k : String) : matchKey k t = false := by
  unfold matchKey
  cases hg : t.goalId with
  | none => rfl
  | some s =>
    rw [hg] at h
    simp only [isFalsyId] at h
    have hs : s = "" := by simpa using h
    subst hs
    by_cases hk : k = ""
    · subst hk; simp
    · have hne : ("" : String) ≠ k := fun hkk => hk hkk.symm
      simp [hk, hne]

theorem countTodo_map_fun (ks : List String) (f : String → GoalProgress)
    (t : Todo) :
    countTodo (ks.map (fun k => (k, f k))) t =
      ks.map (fun k => (k, if matchKey k t then bumpEntry t (f k) else f k)) := by
  by_cases hf : isFalsyId t.goalId = true
  · unfold countTodo
    rw [if_pos hf]
    refine (List.map_congr_left ?_).symm
    intro k _
    rw [matchKey_false_of_falsy t hf k]
    simp
  · cases hg : t.goalId with
    | none =>
      rw [hg] at hf
      simp [isFalsyId] at hf
    | some gid =>
      have hgid : (gid == "") = false := by
        rw [hg] at hf
        simpa [isFalsyId] using hf
      have hfalse : isFalsyId t.goalId = false := by
        rw [hg]
        simpa [isFalsyId] using hgid
      unfold countTodo
      simp only [hg, isFalsyId, hgid, Bool.false_eq_true, if_false,
        getKey_map_fun]
      by_cases hmem : gid ∈ ks
      · simp only [hmem, if_true]
        unfold setKey
        rw [if_pos ((any_map_key ks f gid).mpr hmem), List.map_map]
        refine List.map_congr_left ?_
        intro k _
        by_cases hk : k = gid
        · subst hk
          have hm : matchKey k t = true := by
            simp [matchKey, hg, hgid]
          simp [hm, bumpEntry]
        · have hm : matchKey k t = false := by
            simp [matchKey, hg, Ne.symm hk]
          simp [hm, hk]
      · simp only [hmem, if_false]
        refine (List.map_congr_left ?_).symm
        intro k hkmem
        have hm : matchKey k t = false := by
          by_cases hk : gid = k
          · subst hk; exact absurd hkmem hmem
          · simp [matchKey, hg, hk]
        rw [hm]
        simp

theorem addCounts_nil (k : String) (e : GoalProgress) :
    addCounts k [] e = e := by
  simp [addCounts, totalCount, doneCount]

theorem addCounts_cons (k : String) (t : Todo) (ts : List Todo)
    (e : GoalProgress) :
    addCounts k (t :: ts) e =
      addCounts k ts (if matchKey k t then bumpEntry t e else e) := by
  obtain ⟨et, ed, ep⟩ := e
  by_cases hm : matchKey k t = true
  · by_cases hd : t.isDone = true
    · simp [addCounts, bumpEntry, totalCount, doneCount,
        List.countP_cons, hm, hd, GoalProgress.mk.injEq]
      all_goals omega
    · have hd2 : t.isDone = false := by simpa using hd
      simp [addCounts, bumpEntry, totalCount, doneCount,
        List.countP_cons, hm, hd2, GoalProgress.mk.injEq]
      all_goals omega
  · have hm2 : matchKey k t = false := by simpa using hm
    simp [addCounts, bumpEntry, totalCount, doneCount,
      List.countP_cons, hm2, GoalProgress.mk.injEq]

theorem foldl_countTodo (todos : List Todo) (ks : List String)
    (f : String → GoalProgress) :
    todos.foldl countTodo (ks.map (fun k => (k, f k))) =
      ks.map (fun k => (k, addCounts k todos (f k))) := by
  induction todos generalizing f with
  | nil =>
    simp only [List.foldl_nil]
    refine List.map_congr_left ?_
    intro k _
    rw [addCounts_nil]
  | cons t ts ih =>
    simp only [List.foldl_cons]
    rw [countTodo_map_fun]
    rw [ih (fun k => if matchKey k t then bumpEntry t (f k) else f k)]
    refine List.map_congr_left ?_
    intro k _
    rw [addCounts_cons]

/-- Canonical form of the aggregator: `buildGoalProgressMap goals todos` is
the first-occurrence deduplication of the goal ids, each key paired with the
finalised count of todos matching it. -/
theorem buildGoalProgressMap_eq (goals : List Goal) (todos : List Todo) :
    buildGoalProgressMap goals todos =
      (jsKeys (goals.map Goal.id)).map
        (fun k => (k, finalizeEntry (entryFor k todos))) := by
  unfold buildGoalProgressMap
  rw [initProgressMap_eq]
  rw [foldl_countTodo todos (jsKeys (goals.map Goal.id)) (fun _ => emptyProgress)]
  rw [List.map_map]
  refine List.map_congr_left ?_
  intro k _
  simp only [Function.comp]
  have h : addCounts k todos emptyProgress = entryFor k todos := by
    simp [addCounts, emptyProgress, entryFor]
  rw [h]

theorem mem_insKey (ks : List String) (k a : String) :
    a ∈ insKey ks k ↔ a ∈ ks ∨ a = k := by
  unfold insKey
  by_cases h : k ∈ ks
  · simp only [h, if_true]
    constructor
    · exact fun ha => Or.inl ha
    · rintro (ha | ha)
      · exact ha
      · subst ha; exact h
  · simp [h]

theorem mem_foldl_insKey (ids : List String) (ks : List String) (a : String) :
    a ∈ ids.foldl insKey ks ↔ a ∈ ks ∨ a ∈ ids := by
  induction ids generalizing ks with
  | nil => simp
  | cons i ids ih =>
    simp only [List.foldl_cons, ih, mem_insKey, List.mem_cons]
    tauto

theorem mem_jsKeys (ids : List String) (a : String) :
    a ∈ jsKeys ids ↔ a ∈ ids := by
  unfold jsKeys
  rw [mem_foldl_insKey]
  simp

/-- Pointwise characterisation: reading key `k` from the built map yields the
finalised counts exactly when `k` is the id of some goal. -/
theorem getKey_buildGoalProgressMap (goals : List Goal) (todos : List Todo)
    (k : String) :
    getKey (buildGoalProgressMap goals todos) k =
      if k ∈ goals.map Goal.id then some (finalizeEntry (entryFor k todos))
      else none := by
  rw [buildGoalProgressMap_eq, getKey_map_fun]
  by_cases h : k ∈ goals.map Goal.id
  · rw [if_pos ((mem_jsKeys _ _).mpr h), if_pos h]
  · rw [if_neg (fun hc => h ((mem_jsKeys _ _).mp hc)), if_neg h]

theorem finalizeEntry_total (e : GoalProgress) :
    (finalizeEntry e).total = e.total := by
  unfold finalizeEntry
  split <;> rfl

theorem finalizeEntry_done (e : GoalProgress) :
    (finalizeEntry e).done = e.done := by
  unfold finalizeEntry
  split <;> rfl

theorem finalizeEntry_percent (e : GoalProgress) :
    (finalizeEntry e).percent =
      if e.total = 0 then 0 else jsRound100 e.done e.total := by
  unfold finalizeEntry
  split <;> simp_all

theorem doneCount_le_totalCount (k : String) (todos : List Todo) :
    doneCount k todos ≤ totalCount k todos := by
  refine List.countP_mono_left ?_
  intro t _ h
  exact (Bool.and_eq_true_iff.mp h).1

theorem natLog2Fuel_spec (fuel n : Nat) (hn : 0 < n) (hf : n ≤ fuel) :
    2 ^ natLog2Fuel fuel n ≤ n ∧ n < 2 ^ (natLog2Fuel fuel n + 1) := by
  induction fuel generalizing n with
  | zero => omega
  | succ fuel ih =>
    by_cases h2 : n < 2
    · have hn1 : n = 1 := by omega
      subst hn1
      simp [natLog2Fuel]
    · have hrec := ih (n / 2) (by omega) (by omega)
      simp only [natLog2Fuel, if_neg h2]
      obtain ⟨hr1, hr2⟩ := hrec
      have hp1 : 2 ^ (natLog2Fuel fuel (n / 2) + 1) =
          2 ^ natLog2Fuel fuel (n / 2) * 2 := pow_succ 2 _
      have hp2 : 2 ^ (natLog2Fuel fuel (n / 2) + 1 + 1) =
          2 ^ (natLog2Fuel fuel (n / 2) + 1) * 2 := pow_succ 2 _
      omega

theorem natLog2_spec (n : Nat) (hn : 0 < n) :
    2 ^ natLog2 n ≤ n ∧ n < 2 ^ (natLog2 n + 1) :=
  natLog2Fuel_spec n n hn (le_refl n)

theorem rneDiv_zero (B : Nat) (hB : 0 < B) : rneDiv 0 B = 0 := by
  unfold rneDiv
  simp only [Nat.zero_div, Nat.zero_mod, Nat.mul_zero]
  rw [if_pos hB]

/-- The rounded quotient respects an integer ceiling bound. -/
theorem rneDiv_le_of_le (a b c : Nat) (hb : 0 < b) (h : a ≤ b * c) :
    rneDiv a b ≤ c := by
  unfold rneDiv
  simp only []
  have hdm := Nat.div_add_mod a b
  have hmod := Nat.mod_lt a hb
  have hdivle : a / b ≤ c := by
    have hlt : a < (c + 1) * b := by
      calc a ≤ b * c := h
      _ = c * b := Nat.mul_comm b c
      _ < c * b + b := by omega
      _ = (c + 1) * b := by ring
    exact Nat.lt_succ_iff.mp ((Nat.div_lt_iff_lt_mul hb).mpr hlt)
  by_cases h1 : 2 * (a % b) < b
  · rw [if_pos h1]
    exact hdivle
  · rw [if_neg h1]
    have hr : 0 < a % b := by omega
    have hdivlt : a / b < c := by
      rcases Nat.lt_or_ge (a / b) c with h' | h'
      · exact h'
      · exfalso
        have heq : a / b = c := le_antisymm hdivle h'
        rw [heq] at hdm
        omega
    by_cases h2 : b < 2 * (a % b)
    · rw [if_pos h2]
      omega
    · rw [if_neg h2]
      by_cases h3 : a / b % 2 = 0
      · rw [if_pos h3]
        exact hdivle
      · rw [if_neg h3]
        omega

/-- The rounded quotient exceeds the exact quotient by at most one half:
`rneDiv a b ≤ a/b + 1/2`, cleared of denominators. -/
theorem rneDiv_twice_le (a b : Nat) (hb : 0 < b) :
    2 * b * rneDiv a b ≤ 2 * a + b := by
  unfold rneDiv
  simp only []
  have hdm := Nat.div_add_mod a b
  have hmod := Nat.mod_lt a hb
  by_cases h1 : 2 * (a % b) < b
  · rw [if_pos h1]
    have hx : 2 * b * (a / b) = 2 * (b * (a / b)) := by ring
    omega
  · rw [if_neg h1]
    by_cases h2 : b < 2 * (a % b)
    · rw [if_pos h2]
      have hx : 2 * b * (a / b + 1) = 2 * (b * (a / b)) + 2 * b := by ring
      omega
    · rw [if_neg h2]
      by_cases h3 : a / b % 2 = 0
      · rw [if_pos h3]
        have hx : 2 * b * (a / b) = 2 * (b * (a / b)) := by ring
        omega
      · rw [if_neg h3]
        have hx : 2 * b * (a / b + 1) = 2 * (b * (a / b)) + 2 * b := by ring
        omega

theorem zpow_split (k : ℤ) :
    (2:ℚ) ^ k = (2:ℚ) ^ (k.toNat : ℕ) / (2:ℚ) ^ ((-k).toNat : ℕ) := by
  rcases le_or_lt 0 k with hk | hk
  · have h1 : (-k).toNat = 0 := by omega
    have h2 : (k.toNat : ℤ) = k := Int.toNat_of_nonneg hk
    rw [h1, pow_zero, div_one, ← zpow_natCast (2:ℚ) k.toNat, h2]
  · have h1 : k.toNat = 0 := by omega
    have h2 : ((-k).toNat : ℤ) = -k := Int.toNat_of_nonneg (by omega)
    rw [h1, pow_zero]
    rw [show (2:ℚ) ^ ((-k).toNat : ℕ) = (2:ℚ) ^ (-k) from by
      rw [← zpow_natCast (2:ℚ) (-k).toNat, h2]]
    rw [eq_div_iff (by positivity : (2:ℚ) ^ (-k) ≠ 0)]
    rw [← zpow_add₀ (by norm_num : (2:ℚ) ≠ 0)]
    simp

/-- The exact comparison used by `ratLog2`, read over the rationals. -/
theorem zpow_le_div_iff_nat (a b : Nat) (k : ℤ) (hb : 0 < b) :
    (2:ℚ) ^ k ≤ (a:ℚ) / b ↔ b * 2 ^ k.toNat ≤ a * 2 ^ (-k).toNat := by
  have hb' : (0:ℚ) < b := by exact_mod_cast hb
  rw [zpow_split, div_le_div_iff (by positivity) hb']
  rw [show (2:ℚ) ^ (k.toNat : ℕ) * (b:ℚ) = ((b * 2 ^ k.toNat : Nat) : ℚ) by
    push_cast; ring]
  rw [show (a:ℚ) * (2:ℚ) ^ ((-k).toNat : ℕ) = ((a * 2 ^ (-k).toNat : Nat) : ℚ) by
    push_cast; ring]
  exact Nat.cast_le

/-- `ratLog2 a b` brackets `a/b` between consecutive powers of two. -/
theorem ratLog2_spec (a b : Nat) (ha : 0 < a) (hb : 0 < b) :
    (2:ℚ) ^ ratLog2 a b ≤ (a:ℚ) / b ∧ (a:ℚ) / b < (2:ℚ) ^ (ratLog2 a b + 1) := by
  have hb' : (0:ℚ) < b := by exact_mod_cast hb
  have h2ne : (2:ℚ) ≠ 0 := by norm_num
  obtain ⟨hla1, hla2⟩ := natLog2_spec a ha
  obtain ⟨hlb1, hlb2⟩ := natLog2_spec b hb
  have hla1q : (2:ℚ) ^ ((natLog2 a : ℕ) : ℤ) ≤ (a:ℚ) := by
    rw [zpow_natCast]; exact_mod_cast hla1
  have hla2q : (a:ℚ) < 2 ^ (((natLog2 a : ℕ) : ℤ) + 1) := by
    rw [show ((natLog2 a : ℕ) : ℤ) + 1 = ((natLog2 a + 1 : ℕ) : ℤ) by push_cast; ring,
      zpow_natCast]
    exact_mod_cast hla2
  have hlb1q : (2:ℚ) ^ ((natLog2 b : ℕ) : ℤ) ≤ (b:ℚ) := by
    rw [zpow_natCast]; exact_mod_cast hlb1
  have hlb2q : (b:ℚ) < 2 ^ (((natLog2 b : ℕ) : ℤ) + 1) := by
    rw [show ((natLog2 b : ℕ) : ℤ) + 1 = ((natLog2 b + 1 : ℕ) : ℤ) by push_cast; ring,
      zpow_natCast]
    exact_mod_cast hlb2
  have hub : (a:ℚ) / b < 2 ^ (((natLog2 a : ℤ) - (natLog2 b : ℤ)) + 1) := by
    rw [div_lt_iff hb']
    calc (a:ℚ) < 2 ^ (((natLog2 a : ℕ) : ℤ) + 1) := hla2q
    _ = 2 ^ ((((natLog2 a : ℤ) - (natLog2 b : ℤ)) + 1) + ((natLog2 b : ℕ) : ℤ)) := by
        rw [show ((natLog2 a : ℕ) : ℤ) + 1 =
          (((natLog2 a : ℤ) - (natLog2 b : ℤ)) + 1) + ((natLog2 b : ℕ) : ℤ) by omega]
    _ = 2 ^ (((natLog2 a : ℤ) - (natLog2 b : ℤ)) + 1) * 2 ^ ((natLog2 b : ℕ) : ℤ) :=
        zpow_add₀ h2ne _ _
    _ ≤ 2 ^ (((natLog2 a : ℤ) - (natLog2 b : ℤ)) + 1) * (b:ℚ) :=
        mul_le_mul_of_nonneg_left hlb1q (le_of_lt (zpow_pos (by norm_num) _))
  have hlbd : (2:ℚ) ^ (((natLog2 a : ℤ) - (natLog2 b : ℤ)) - 1) < (a:ℚ) / b := by
    rw [lt_div_iff hb']
    calc (2:ℚ) ^ (((natLog2 a : ℤ) - (natLog2 b : ℤ)) - 1) * (b:ℚ)
        < 2 ^ (((natLog2 a : ℤ) - (natLog2 b : ℤ)) - 1) *
            2 ^ (((natLog2 b : ℕ) : ℤ) + 1) :=
          mul_lt_mul_of_pos_left hlb2q (zpow_pos (by norm_num) _)
    _ = 2 ^ ((natLog2 a : ℕ) : ℤ) := by
        rw [← zpow_add₀ h2ne]
        rw [show (((natLog2 a : ℤ) - (natLog2 b : ℤ)) - 1) +
          (((natLog2 b : ℕ) : ℤ) + 1) = ((natLog2 a : ℕ) : ℤ) by omega]
    _ ≤ (a:ℚ) := hla1q
  unfold ratLog2
  simp only []
  by_cases hcond : b * 2 ^ (((natLog2 a : ℤ) - (natLog2 b : ℤ)).toNat) ≤
      a * 2 ^ ((-((natLog2 a : ℤ) - (natLog2 b : ℤ))).toNat)
  · rw [if_pos hcond]
    exact ⟨(zpow_le_div_iff_nat a b _ hb).mpr hcond, hub⟩
  · rw [if_neg hcond]
    have hnot : ¬ (2:ℚ) ^ ((natLog2 a : ℤ) - (natLog2 b : ℤ)) ≤ (a:ℚ) / b :=
      fun hc => hcond ((zpow_le_div_iff_nat a b _ hb).mp hc)
    refine ⟨le_of_lt hlbd, ?_⟩
    rw [show ((natLog2 a : ℤ) - (natLog2 b : ℤ)) - 1 + 1 =
      (natLog2 a : ℤ) - (natLog2 b : ℤ) by ring]
    exact not_le.mp hnot

/-- Cast bridge: the quotient defining a rounded significand equals the exact
scaled value. -/
theorem cast_mul_pow_div (M : Nat) (j : ℤ) :
    ((M * 2 ^ j.toNat : Nat) : ℚ) / ((2 ^ (-j).toNat : Nat) : ℚ) =
      (M:ℚ) * (2:ℚ) ^ j := by
  rcases le_or_lt 0 j with hj | hj
  · have h1 : (-j).toNat = 0 := by omega
    have h2 : (j.toNat : ℤ) = j := Int.toNat_of_nonneg hj
    rw [h1, pow_zero, Nat.cast_one, div_one,
      show (2:ℚ) ^ j = (2:ℚ) ^ (j.toNat : ℕ) from by
        rw [← zpow_natCast (2:ℚ) j.toNat, h2]]
    push_cast
    ring
  · have h1 : j.toNat = 0 := by omega
    have h2 : ((-j).toNat : ℤ) = -j := Int.toNat_of_nonneg (by omega)
    rw [h1, pow_zero, mul_one]
    rw [div_eq_iff (by positivity : ((2 ^ (-j).toNat : Nat) : ℚ) ≠ 0)]
    rw [mul_assoc]
    rw [show (2:ℚ) ^ j * ((2 ^ (-j).toNat : Nat) : ℚ) = 1 from by
      push_cast
      rw [← zpow_natCast (2:ℚ) (-j).toNat, h2,
        ← zpow_add₀ (by norm_num : (2:ℚ) ≠ 0)]
      simp]
    rw [mul_one]

/-- The double nearest `a/b` is at most `1` when `a ≤ b`. -/
theorem fl64_le_one (a b : Nat) (hb : 0 < b) (hab : a ≤ b) :
    ((fl64 a b).1 : ℚ) * (2:ℚ) ^ (fl64 a b).2 ≤ 1 := by
  rcases Nat.eq_zero_or_pos a with ha0 | ha
  · subst ha0
    have h1 : (fl64 0 b).1 = 0 := by
      unfold fl64
      simp only [Nat.zero_mul]
      exact rneDiv_zero _ (Nat.mul_pos hb (Nat.two_pow_pos _))
    rw [h1]
    simp
  · have hspec := ratLog2_spec a b ha hb
    have hdivle1 : (a:ℚ) / b ≤ 1 := by
      rw [div_le_one (by exact_mod_cast hb)]
      exact_mod_cast hab
    have hl0 : ratLog2 a b ≤ 0 := by
      by_contra hcon
      push_neg at hcon
      have hstep : (2:ℚ) ^ (1:ℤ) ≤ (2:ℚ) ^ ratLog2 a b :=
        zpow_le_zpow_right₀ (by norm_num) (by omega)
      have : (2:ℚ) ≤ (a:ℚ) / b := by
        have := hstep.trans hspec.1
        simpa using this
      linarith
    have hfl : fl64 a b =
        (rneDiv (a * 2 ^ (-(max (ratLog2 a b - 52) (-1074))).toNat)
          (b * 2 ^ (max (ratLog2 a b - 52) (-1074)).toNat),
         max (ratLog2 a b - 52) (-1074)) := rfl
    rw [hfl]
    simp only []
    have hetn : (max (ratLog2 a b - 52) (-1074)).toNat = 0 := by omega
    rw [hetn, pow_zero, mul_one]
    have hm : rneDiv (a * 2 ^ (-(max (ratLog2 a b - 52) (-1074))).toNat) b ≤
        2 ^ (-(max (ratLog2 a b - 52) (-1074))).toNat :=
      rneDiv_le_of_le _ _ _ hb (Nat.mul_le_mul_right _ hab)
    have h2e : (0:ℚ) < (2:ℚ) ^ (max (ratLog2 a b - 52) (-1074)) := by
      positivity
    have hstep1 :
        (↑(rneDiv (a * 2 ^ (-(max (ratLog2 a b - 52) (-1074))).toNat) b) : ℚ) *
            (2:ℚ) ^ (max (ratLog2 a b - 52) (-1074)) ≤
          ((2 ^ (-(max (ratLog2 a b - 52) (-1074))).toNat : Nat) : ℚ) *
            (2:ℚ) ^ (max (ratLog2 a b - 52) (-1074)) := by
      refine mul_le_mul_of_nonneg_right ?_ (le_of_lt h2e)
      exact_mod_cast hm
    have hstep2 :
        ((2 ^ (-(max (ratLog2 a b - 52) (-1074))).toNat : Nat) : ℚ) *
            (2:ℚ) ^ (max (ratLog2 a b - 52) (-1074)) = 1 := by
      push_cast
      rw [← zpow_natCast (2:ℚ) (-(max (ratLog2 a b - 52) (-1074))).toNat,
        Int.toNat_of_nonneg (by omega :
          (0:ℤ) ≤ -(max (ratLog2 a b - 52) (-1074))),
        ← zpow_add₀ (by norm_num : (2:ℚ) ≠ 0)]
      simp
    exact hstep2 ▸ hstep1

set_option maxHeartbeats 1000000 in
theorem jsRound100_le_100 (d n : Nat) (hd : d ≤ n) (hn : 0 < n) :
    jsRound100 d n ≤ 100 := by
  have hn0 : n ≠ 0 := by omega
  have hv1 := fl64_le_one d n hn hd
  unfold jsRound100
  rw [if_neg hn0]
  simp only []
  by_cases hM : (fl64 d n).1 * 100 = 0
  · rw [if_pos hM]
    omega
  · rw [if_neg hM]
    set m := (fl64 d n).1 with hmdef
    set e := (fl64 d n).2 with hedef
    set M := m * 100 with hMdef
    have hMpos : 0 < M := Nat.pos_of_ne_zero hM
    have hv1nn : (0:ℚ) ≤ (m:ℚ) * (2:ℚ) ^ e := by positivity
    have hx2 : (M:ℚ) * (2:ℚ) ^ e ≤ 100 := by
      rw [hMdef]
      push_cast
      calc (m:ℚ) * 100 * (2:ℚ) ^ e = 100 * ((m:ℚ) * (2:ℚ) ^ e) := by ring
      _ ≤ 100 * 1 := by linarith
      _ = 100 := by norm_num
    have hlogM := natLog2_spec M hMpos
    have hl2 : (natLog2 M : ℤ) + e ≤ 6 := by
      by_contra hcon
      push_neg at hcon
      have hML : (2:ℚ) ^ ((natLog2 M : ℤ) + e) ≤ (M:ℚ) * (2:ℚ) ^ e := by
        rw [zpow_add₀ (by norm_num : (2:ℚ) ≠ 0)]
        refine mul_le_mul_of_nonneg_right ?_ (le_of_lt (zpow_pos (by norm_num) e))
        rw [zpow_natCast]
        exact_mod_cast hlogM.1
      have h7 : (2:ℚ) ^ (7:ℤ) ≤ (2:ℚ) ^ ((natLog2 M : ℤ) + e) :=
        zpow_le_zpow_right₀ (by norm_num) (by omega)
      have habs : (128:ℚ) ≤ 100 := by
        calc (128:ℚ) = (2:ℚ) ^ (7:ℤ) := by norm_num
        _ ≤ (M:ℚ) * (2:ℚ) ^ e := h7.trans hML
        _ ≤ 100 := hx2
      norm_num at habs
    set e2 : ℤ := max ((natLog2 M : ℤ) + e - 52) (-1074) with he2def
    have he2neg : e2 < 0 := by omega
    set m2 := rneDiv (M * 2 ^ (e - e2).toNat) (2 ^ (e2 - e).toNat) with hm2def
    have hB : 0 < 2 ^ (e2 - e).toNat := Nat.two_pow_pos _
    have hkey := rneDiv_twice_le (M * 2 ^ (e - e2).toNat) (2 ^ (e2 - e).toNat) hB
    have hy2 : ((M * 2 ^ (e - e2).toNat : Nat) : ℚ) /
        ((2 ^ (e2 - e).toNat : Nat) : ℚ) = (M:ℚ) * (2:ℚ) ^ (e - e2) := by
      rw [show (e2 - e) = -(e - e2) by ring]
      exact cast_mul_pow_div M (e - e2)
    have hBq : (0:ℚ) < ((2 ^ (e2 - e).toNat : Nat) : ℚ) := by exact_mod_cast hB
    have hm2q : (m2:ℚ) ≤ (M:ℚ) * (2:ℚ) ^ (e - e2) + 1 / 2 := by
      rw [← hy2]
      rw [show ((M * 2 ^ (e - e2).toNat : Nat) : ℚ) /
          ((2 ^ (e2 - e).toNat : Nat) : ℚ) + 1 / 2 =
          (2 * ((M * 2 ^ (e - e2).toNat : Nat) : ℚ) +
            ((2 ^ (e2 - e).toNat : Nat) : ℚ)) /
            (2 * ((2 ^ (e2 - e).toNat : Nat) : ℚ)) from by
        field_simp
        ring]
      rw [le_div_iff (by positivity)]
      have hkeyq : (2:ℚ) * ((2 ^ (e2 - e).toNat : Nat) : ℚ) * (m2:ℚ) ≤
          2 * ((M * 2 ^ (e - e2).toNat : Nat) : ℚ) +
            ((2 ^ (e2 - e).toNat : Nat) : ℚ) := by
        exact_mod_cast hkey
      linarith
    have hsplit2 : (M:ℚ) * (2:ℚ) ^ (e - e2) =
        ((M:ℚ) * (2:ℚ) ^ e) * (2:ℚ) ^ ((-e2).toNat : ℕ) := by
      rw [mul_assoc, ← zpow_natCast (2:ℚ) (-e2).toNat,
        Int.toNat_of_nonneg (by omega : (0:ℤ) ≤ -e2),
        ← zpow_add₀ (by norm_num : (2:ℚ) ≠ 0)]
      rw [show e + -e2 = e - e2 by ring]
    have hm2bound : (m2:ℚ) ≤ 100 * (2:ℚ) ^ ((-e2).toNat : ℕ) + 1 / 2 := by
      rw [hsplit2] at hm2q
      have h2p : (0:ℚ) ≤ (2:ℚ) ^ ((-e2).toNat : ℕ) := by positivity
      nlinarith [hx2, h2p]
    have hm2n : m2 ≤ 100 * 2 ^ (-e2).toNat := by
      by_contra hcon
      push_neg at hcon
      have hq : ((100 * 2 ^ (-e2).toNat + 1 : Nat) : ℚ) ≤ (m2:ℚ) := by
        exact_mod_cast hcon
      push_cast at hq
      linarith
    unfold mathRoundDyadic
    rw [if_neg (by omega : ¬ (0:ℤ) ≤ e2)]
    have hstep : 2 * m2 + 2 ^ (-e2).toNat ≤ 201 * 2 ^ (-e2).toNat := by
      have := Nat.two_pow_pos (-e2).toNat
      omega
    calc (2 * m2 + 2 ^ (-e2).toNat) / 2 ^ ((-e2).toNat + 1)
        ≤ (201 * 2 ^ (-e2).toNat) / 2 ^ ((-e2).toNat + 1) :=
          Nat.div_le_div_right hstep
    _ = 100 := by
        rw [pow_succ]
        rw [show 201 * 2 ^ (-e2).toNat =
          (2 ^ (-e2).toNat * 2) * 100 + 2 ^ (-e2).toNat by ring]
        rw [Nat.mul_add_div (by positivity)]
        have hz : 2 ^ (-e2).toNat / (2 ^ (-e2).toNat * 2) = 0 :=
          Nat.div_eq_of_lt (by
            have := Nat.two_pow_pos (-e2).toNat
            omega)
        omega

/-! ### Claims about the Progress Aggregator -/

set_option maxRecDepth 100000

/-- Claim C1, as stated in the claims list, fails on the code in two ways.
First, the count clause: `buildGoalProgressMap` skips todos whose `goalId` is
the empty string (the JS guard `if (!todo.goalId) return` treats `""` as
falsy), so a goal whose id is `""` gets `total = 0` even when a todo carries
`goalId: ""`.  Second, the percent clause: the program evaluates
`Math.round((done/total)*100)` in IEEE binary64, which at 23 done of 40
yields `57`, not the exact half-up value `58` the claim requires. -/
theorem c1_counterexample :
    (¬ (∀ (goals : List Goal) (todos : List Todo), ∀ g ∈ goals,
        ∀ e, getKey (buildGoalProgressMap goals todos) g.id = some e →
          e.total = todos.countP (fun t => t.goalId == some g.id))) ∧
    (¬ (∀ (goals : List Goal) (todos : List Todo), ∀ g ∈ goals,
        ∀ e, getKey (buildGoalProgressMap goals todos) g.id = some e →
          0 < e.total →
          e.percent = Nat.floor ((100 * (e.done : ℚ)) / e.total + 1 / 2))) := by
  constructor
  · intro h
    have hg : (⟨"", "G", 0, 0⟩ : Goal) ∈ [(⟨"", "G", 0, 0⟩ : Goal)] :=
      List.mem_singleton.mpr rfl
    have he : getKey
        (buildGoalProgressMap [⟨"", "G", 0, 0⟩] [⟨"t1", "x", true, some "", 0⟩])
        (Goal.id ⟨"", "G", 0, 0⟩) = some ⟨0, 0, 0⟩ := by decide
    have hcl := h _ _ _ hg ⟨0, 0, 0⟩ he
    have hc : ([(⟨"t1", "x", true, some "", 0⟩ : Todo)]).countP
        (fun t => t.goalId == some (Goal.id (⟨"", "G", 0, 0⟩ : Goal))) = 1 := by
      decide
    rw [hc] at hcl
    exact absurd hcl (by decide)
  · intro h
    have hg : (⟨"g1", "G", 0, 0⟩ : Goal) ∈ [(⟨"g1", "G", 0, 0⟩ : Goal)] :=
      List.mem_singleton.mpr rfl
    have he : getKey
        (buildGoalProgressMap [⟨"g1", "G", 0, 0⟩]
          (List.replicate 23 (⟨"d", "d", true, some "g1", 0⟩ : Todo) ++
           List.replicate 17 (⟨"u", "u", false, some "g1", 0⟩ : Todo)))
        (Goal.id ⟨"g1", "G", 0, 0⟩) = some ⟨40, 23, 57⟩ := by decide
    have hcl := h _ _ _ hg ⟨40, 23, 57⟩ he (by decide)
    have hfloor : Nat.floor
        ((100 * ((⟨40, 23, 57⟩ : GoalProgress).done : ℚ)) /
          ((⟨40, 23, 57⟩ : GoalProgress).total : ℚ) + 1 / 2) = 58 := by
      show Nat.floor ((100 * ((23 : ℕ) : ℚ)) / ((40 : ℕ) : ℚ) + 1 / 2) = 58
      rw [show (100 * ((23 : ℕ) : ℚ)) / ((40 : ℕ) : ℚ) + 1 / 2 = ((58 : ℕ) : ℚ) by
        push_cast; norm_num]
      exact Nat.floor_natCast 58
    rw [hfloor] at hcl
    exact absurd hcl (by decide)

/-- Claim C1 (amended): for every goal `g` in `goals`, the built map's entry
at `g.id` has `total` equal to the number of todos whose `goalId` is present,
non-empty, and equal to `g.id`; `done` counts those that are additionally
`isDone`; and `percent` is `0` when `total = 0`, else
`Math.round((done/total)*100)` as IEEE binary64 arithmetic evaluates it
(`jsRound100`).  (The amendment restricts the counted todos to those with a
non-empty `goalId`, which the code's falsy-guard skips, and replaces the
exact half-up rounding by the program's double rounding, which differs from
it at, e.g., 23 done of 40.) -/
theorem c1_goal_entry_counts (goals : List Goal) (todos : List Todo)
    (g : Goal) (hg : g ∈ goals) :
    ∃ e, getKey (buildGoalProgressMap goals todos) g.id = some e ∧
      e.total = todos.countP (fun t => t.goalId == some g.id && !(g.id == "")) ∧
      e.done = todos.countP
        (fun t => (t.goalId == some g.id && !(g.id == "")) && t.isDone) ∧
      (e.total = 0 → e.percent = 0) ∧
      (0 < e.total → e.percent = jsRound100 e.done e.total) := by
  have hmem : g.id ∈ goals.map Goal.id := List.mem_map_of_mem Goal.id hg
  refine ⟨finalizeEntry (entryFor g.id todos), ?_, ?_, ?_, ?_, ?_⟩
  · rw [getKey_buildGoalProgressMap, if_pos hmem]
  · rw [finalizeEntry_total]
    rfl
  · rw [finalizeEntry_done]
    rfl
  · intro h0
    rw [finalizeEntry_total] at h0
    rw [finalizeEntry_percent, if_pos h0]
  · intro hpos
    rw [finalizeEntry_total] at hpos
    rw [finalizeEntry_percent, if_neg (by omega), finalizeEntry_done,
      finalizeEntry_total]

/-- Witness for C1: a goal with one matching done todo and one matching open
todo. -/
theorem c1_witness :
    ∃ e, getKey (buildGoalProgressMap [⟨"g1", "G", 0, 0⟩]
        [⟨"t1", "a", true, some "g1", 0⟩, ⟨"t2", "b", false, some "g1", 0⟩])
        "g1" = some e ∧
      e.total = List.countP (fun t => t.goalId == some "g1" && !("g1" == ""))
        ([⟨"t1", "a", true, some "g1", 0⟩,
          ⟨"t2", "b", false, some "g1", 0⟩] : List Todo) ∧
      e.done = List.countP
        (fun t => (t.goalId == some "g1" && !("g1" == "")) && t.isDone)
        ([⟨"t1", "a", true, some "g1", 0⟩,
          ⟨"t2", "b", false, some "g1", 0⟩] : List Todo) ∧
      (e.total = 0 → e.percent = 0) ∧
      (0 < e.total → e.percent = jsRound100 e.done e.total) :=
  c1_goal_entry_counts [⟨"g1", "G", 0, 0⟩]
    [⟨"t1", "a", true, some "g1", 0⟩, ⟨"t2", "b", false, some "g1", 0⟩]
    ⟨"g1", "G", 0, 0⟩ (by simp)

/-- Claim C6: every entry of the built map has `percent ≤ 100` (`percent` is a
natural number, so `0 ≤ percent` holds by type), and an entry with
`total = 0` has `percent = 0`. -/
theorem c6_percent_in_range (goals : List Goal) (todos : List Todo)
    (k : String) (e : GoalProgress)
    (he : getKey (buildGoalProgressMap goals todos) k = some e) :
    e.percent ≤ 100 ∧ (e.total = 0 → e.percent = 0) := by
  rw [getKey_buildGoalProgressMap] at he
  by_cases h : k ∈ goals.map Goal.id
  · rw [if_pos h] at he
    have he2 : finalizeEntry (entryFor k todos) = e := Option.some.inj he
    subst he2
    constructor
    · by_cases h0 : (entryFor k todos).total = 0
      · rw [finalizeEntry_percent, if_pos h0]
        exact Nat.zero_le _
      · rw [finalizeEntry_percent, if_neg h0]
        have htc : (entryFor k todos).total = totalCount k todos := rfl
        have hdc : (entryFor k todos).done = doneCount k todos := rfl
        rw [htc, hdc]
        exact jsRound100_le_100 _ _ (doneCount_le_totalCount k todos) (by omega)
    · intro h0
      rw [finalizeEntry_total] at h0
      rw [finalizeEntry_percent, if_pos h0]
  · rw [if_neg h] at he
    exact absurd he (by simp)

/-- Witness for C6: one goal, one done todo, entry `{total 1, done 1,
percent 100}`. -/
theorem c6_witness :
    (⟨1, 1, 100⟩ : GoalProgress).percent ≤ 100 ∧
      ((⟨1, 1, 100⟩ : GoalProgress).total = 0 →
        (⟨1, 1, 100⟩ : GoalProgress).percent = 0) :=
  c6_percent_in_range [⟨"g1", "G", 0, 0⟩] [⟨"t1", "a", true, some "g1", 0⟩]
    "g1" ⟨1, 1, 100⟩ (by decide)

/-- Claim C7: a todo whose `goalId` is absent, or does not equal the id of
any goal in `goals`, is ignored by `buildGoalProgressMap`: deleting it from
the todo list leaves the built map unchanged (so it contributes to no entry's
counts and creates no entry), and the keys of the result are exactly the ids
of `goals`.  The embedding is total, so no error can occur. -/
theorem c7_dangling_ignored (goals : List Goal) (pre post : List Todo)
    (t : Todo)
    (ht : t.goalId = none ∨ ∀ g ∈ goals, t.goalId ≠ some g.id) :
    buildGoalProgressMap goals (pre ++ t :: post) =
        buildGoalProgressMap goals (pre ++ post) ∧
      ∀ k, (∃ e, getKey (buildGoalProgressMap goals (pre ++ t :: post)) k
          = some e) ↔ k ∈ goals.map Goal.id := by
  have hmk : ∀ k ∈ goals.map Goal.id, matchKey k t = false := by
    intro k hk
    rcases ht with h | h
    · unfold matchKey
      rw [h]
      rfl
    · rcases List.mem_map.mp hk with ⟨g, hgmem, rfl⟩
      have hne := h g hgmem
      unfold matchKey
      cases hgoal : t.goalId with
      | none => rfl
      | some gid =>
        have hne2 : gid ≠ g.id := fun hh => hne (by rw [hgoal, hh])
        simp [hne2]
  constructor
  · rw [buildGoalProgressMap_eq, buildGoalProgressMap_eq]
    refine List.map_congr_left ?_
    intro k hk
    have hk2 : k ∈ goals.map Goal.id := (mem_jsKeys _ _).mp hk
    have hmf := hmk k hk2
    have hent : entryFor k (pre ++ t :: post) = entryFor k (pre ++ post) := by
      unfold entryFor totalCount doneCount
      simp [List.countP_append, List.countP_cons, hmf]
    rw [hent]
  · intro k
    rw [getKey_buildGoalProgressMap]
    by_cases h : k ∈ goals.map Goal.id
    · simp [h]
    · simp [h]

/-- Witness for C7: a todo with `goalId: "ghost"` among goals `["g1"]`. -/
theorem c7_witness :
    buildGoalProgressMap [⟨"g1", "G", 0, 0⟩]
        [⟨"t2", "b", true, some "ghost", 0⟩, ⟨"t1", "a", true, some "g1", 0⟩] =
      buildGoalProgressMap [⟨"g1", "G", 0, 0⟩]
        [⟨"t1", "a", true, some "g1", 0⟩] ∧
    ((∃ e, getKey (buildGoalProgressMap [⟨"g1", "G", 0, 0⟩]
        [⟨"t2", "b", true, some "ghost", 0⟩, ⟨"t1", "a", true, some "g1", 0⟩])
        "ghost" = some e) ↔
      "ghost" ∈ List.map Goal.id [⟨"g1", "G", 0, 0⟩]) :=
  ⟨(c7_dangling_ignored [⟨"g1", "G", 0, 0⟩] [] [⟨"t1", "a", true, some "g1", 0⟩]
      ⟨"t2", "b", true, some "ghost", 0⟩ (Or.inr (by decide))).1,
   (c7_dangling_ignored [⟨"g1", "G", 0, 0⟩] [] [⟨"t1", "a", true, some "g1", 0⟩]
      ⟨"t2", "b", true, some "ghost", 0⟩ (Or.inr (by decide))).2 "ghost"⟩

/-- Claim C9: `buildGoalProgressMap` is a pure function — recomputing on the
same inputs yields the identical value — and its output, read through key
lookup (JS deep equality of plain objects ignores key insertion order), is
invariant under any permutation of the goals list and any permutation of the
todos list. -/
theorem c9_pure_and_order_invariant (gs gs2 : List Goal) (ts ts2 : List Todo)
    (hg : gs.Perm gs2) (ht : ts.Perm ts2) :
    buildGoalProgressMap gs ts = buildGoalProgressMap gs ts ∧
      ∀ k, getKey (buildGoalProgressMap gs ts) k =
        getKey (buildGoalProgressMap gs2 ts2) k := by
  refine ⟨rfl, fun k => ?_⟩
  rw [getKey_buildGoalProgressMap, getKey_buildGoalProgressMap]
  have hmem : (k ∈ gs.map Goal.id) ↔ (k ∈ gs2.map Goal.id) :=
    (hg.map Goal.id).mem_iff
  have hent : entryFor k ts = entryFor k ts2 := by
    unfold entryFor totalCount doneCount
    rw [ht.countP_eq (matchKey k),
      ht.countP_eq (fun t => matchKey k t && t.isDone)]
  by_cases h : k ∈ gs.map Goal.id
  · rw [if_pos h, if_pos (hmem.mp h), hent]
  · rw [if_neg h, if_neg (fun hc => h (hmem.mpr hc))]

/-- Witness for C9: two goals and two todos, both lists swapped. -/
theorem c9_witness :
    buildGoalProgressMap [⟨"g1", "G", 0, 0⟩, ⟨"g2", "H", 0, 0⟩]
        [⟨"t1", "a", true, some "g1", 0⟩, ⟨"t2", "b", false, some "g2", 0⟩] =
      buildGoalProgressMap [⟨"g1", "G", 0, 0⟩, ⟨"g2", "H", 0, 0⟩]
        [⟨"t1", "a", true, some "g1", 0⟩, ⟨"t2", "b", false, some "g2", 0⟩] ∧
    getKey (buildGoalProgressMap [⟨"g1", "G", 0, 0⟩, ⟨"g2", "H", 0, 0⟩]
        [⟨"t1", "a", true, some "g1", 0⟩, ⟨"t2", "b", false, some "g2", 0⟩])
        "g1" =
      getKey (buildGoalProgressMap [⟨"g2", "H", 0, 0⟩, ⟨"g1", "G", 0, 0⟩]
        [⟨"t2", "b", false, some "g2", 0⟩, ⟨"t1", "a", true, some "g1", 0⟩])
        "g1" :=
  ⟨(c9_pure_and_order_invariant _ _ _ _
      (List.Perm.swap ⟨"g2", "H", 0, 0⟩ ⟨"g1", "G", 0, 0⟩ [])
      (List.Perm.swap ⟨"t2", "b", false, some "g2", 0⟩
        ⟨"t1", "a", true, some "g1", 0⟩ [])).1,
   (c9_pure_and_order_invariant _ _ _ _
      (List.Perm.swap ⟨"g2", "H", 0, 0⟩ ⟨"g1", "G", 0, 0⟩ [])
      (List.Perm.swap ⟨"t2", "b", false, some "g2", 0⟩
        ⟨"t1", "a", true, some "g1", 0⟩ [])).2 "g1"⟩

/-! ### Remote store adapter (src/lib/firestore.ts) -/

/-- The clamp in `updateGoalProgress`:
`Math.max(0, Math.min(100, newPercent))`. -/
def clampedPercent (newPercent : ℚ) : ℚ :=
  max 0 (min 100 newPercent)

/-- `updateGoalProgress(uid, goalId, newPercent)` writes
`{ currentPercent: clampedPercent }` to the goal document; this embeds the
goal document after the write. -/
def updateGoalProgress (g : Goal) (newPercent : ℚ) : Goal :=
  { g with currentPercent := clampedPercent newPercent }

/-! ### Todo mutations (src/hooks/useTodos.ts)

The react-query cache for a collection is `Option (List _)`: `none` is an
unpopulated cache (JS `undefined`).  A `setQueryData` updater of the shape
`(old) => old?.map(...)` returns `undefined` on an empty cache, which leaves
the cache unchanged, hence `Option.map`.  Each `onMutate` returns the new
cache together with the context it hands to the other callbacks. -/

/-- `calculateGoalPercent(todos, goalId)`: `null` when the todos cache is
`undefined` or the goalId is falsy (`undefined` or `""`); `0` when no cached
todo is linked to the goal; else `Math.round((doneCount/goalTodos.length)*100)`. -/
def calculateGoalPercent (todos : Option (List Todo))
    (goalId : Option String) : Option Nat :=
  match todos, goalId with
  | none, _ => none
  | _, none => none
  | some ts, some gid =>
    if gid == "" then none
    else
      let goalTodos := ts.filter (fun t => t.goalId == some gid)
      if goalTodos.length = 0 then some 0
      else
        some (jsRound100 (goalTodos.filter (fun t => t.isDone)).length
          goalTodos.length)

/-- Context captured by `useAddTodo`'s `onMutate`. -/
structure AddTodoCtx where
  previousTodos : Option (List Todo)
  tempId : String

/-- `useAddTodo.onMutate`: snapshot the cache, then prepend a provisional
todo `{id: tempId, title, isDone: false, goalId, createdAt: now}` (creating a
one-element list when the cache was empty). -/
def useAddTodo_onMutate (cache : Option (List Todo)) (title : String)
    (goalId : Option String) (tempId : String) (now : Nat) :
    Option (List Todo) × AddTodoCtx :=
  let previousTodos := cache
  let newTodo : Todo := ⟨tempId, title, false, goalId, now⟩
  (some (match cache with
    | some old => newTodo :: old
    | none => [newTodo]), ⟨previousTodos, tempId⟩)

/-- `useAddTodo.onError`: restore the snapshot only when it is defined
(`if (context?.previousTodos)`). -/
def useAddTodo_onError (cache : Option (List Todo)) (ctx : AddTodoCtx) :
    Option (List Todo) :=
  match ctx.previousTodos with
  | some prev => some prev
  | none => cache

/-- The cache after a failed add-todo: optimistic apply, then the error
handler. -/
def useAddTodo_failRun (cache : Option (List Todo)) (title : String)
    (goalId : Option String) (tempId : String) (now : Nat) :
    Option (List Todo) :=
  let s := useAddTodo_onMutate cache title goalId tempId now
  useAddTodo_onError s.1 s.2

/-- `useAddTodo.onSuccess` id reconciliation:
`old?.map(todo => todo.id === tempId ? { ...todo, id: todoId } : todo)`. -/
def useAddTodo_onSuccess (cache : Option (List Todo))
    (tempId serverId : String) : Option (List Todo) :=
  cache.map (fun old =>
    old.map (fun t => if t.id == tempId then { t with id := serverId } else t))

/-- Context captured by `useAddTodosBulk`'s `onMutate`. -/
structure AddTodosBulkCtx where
  previousTodos : Option (List Todo)
  tempIds : List String

/-- `useAddTodosBulk.onMutate`: snapshot, then prepend one provisional todo
per title, ids drawn positionally from `tempIds` (the source generates
`tempIds = titles.map(() => randomUUID())`, one per title, so the two lists
are zipped). -/
def useAddTodosBulk_onMutate (cache : Option (List Todo))
    (titles : List String) (goalId : Option String) (tempIds : List String)
    (now : Nat) : Option (List Todo) × AddTodosBulkCtx :=
  let previousTodos := cache
  let newTodos : List Todo :=
    (titles.zip tempIds).map (fun p => ⟨p.2, p.1, false, goalId, now⟩)
  (some (match cache with
    | some old => newTodos ++ old
    | none => newTodos), ⟨previousTodos, tempIds⟩)

/-- `useAddTodosBulk.onError`: restore the snapshot only when defined. -/
def useAddTodosBulk_onError (cache : Option (List Todo))
    (ctx : AddTodosBulkCtx) : Option (List Todo) :=
  match ctx.previousTodos with
  | some prev => some prev
  | none => cache

def useAddTodosBulk_failRun (cache : Option (List Todo))
    (titles : List String) (goalId : Option String) (tempIds : List String)
    (now : Nat) : Option (List Todo) :=
  let s := useAddTodosBulk_onMutate cache titles goalId tempIds now
  useAddTodosBulk_onError s.1 s.2

/-- The id a record gets in `useAddTodosBulk.onSuccess`:
`tempIndex = tempIds.indexOf(todo.id); tempIndex === -1 ? todo.id :
todoIds[tempIndex]`.  (When `serverIds` is shorter than `tempIds` the JS code
would assign `undefined`; the commit-law theorem assumes the lists have equal
length — the server returns one id per inserted title — so the `getD`
fallback is unreachable there.) -/
def bulkNewId (tempIds serverIds : List String) (id : String) : String :=
  match tempIds.findIdx? (fun x => x == id) with
  | none => id
  | some i => serverIds.getD i id

/-- `useAddTodosBulk.onSuccess` id reconciliation over the cached list. -/
def useAddTodosBulk_onSuccess (cache : Option (List Todo))
    (tempIds serverIds : List String) : Option (List Todo) :=
  cache.map (fun old =>
    old.map (fun t => { t with id := bulkNewId tempIds serverIds t.id }))

/-- `useToggleTodo.onMutate`: snapshot, then flip `isDone` of the matching
todo in place (`old?.map(...)`, so an empty cache stays empty). -/
def useToggleTodo_onMutate (cache : Option (List Todo)) (todoId : String)
    (isDone : Bool) : Option (List Todo) × Option (List Todo) :=
  let previousTodos := cache
  (cache.map (fun old =>
    old.map (fun t => if t.id == todoId then { t with isDone := isDone } else t)),
   previousTodos)

/-- `useToggleTodo.onError`: restore the snapshot only when defined. -/
def useToggleTodo_onError (cache snapshot : Option (List Todo)) :
    Option (List Todo) :=
  match snapshot with
  | some prev => some prev
  | none => cache

def useToggleTodo_failRun (cache : Option (List Todo)) (todoId : String)
    (isDone : Bool) : Option (List Todo) :=
  let s := useToggleTodo_onMutate cache todoId isDone
  useToggleTodo_onError s.1 s.2

/-- `useToggleTodo.onSuccess`: read the current cache, find the toggled
todo's `goalId`, compute `calculateGoalPercent`, and when the percent is
non-null and the goalId truthy push `(goalId, percent)` to
`updateGoalProgress`.  Returns the pushed pair, `none` when nothing is
pushed. -/
def useToggleTodo_onSuccess (currentTodos : Option (List Todo))
    (todoId : String) : Option (String × Nat) :=
  let goalId : Option String :=
    match currentTodos with
    | none => none
    | some ts =>
      match ts.find? (fun t => t.id == todoId) with
      | none => none
      | some t0 => t0.goalId
  match calculateGoalPercent currentTodos goalId, goalId with
  | some p, some gid => if gid == "" then none else some (gid, p)
  | _, _ => none

/-- `useDeleteTodo.onMutate`: snapshot, then filter the todo out
(`old?.filter(...)`). -/
def useDeleteTodo_onMutate (cache : Option (List Todo)) (todoId : String) :
    Option (List Todo) × Option (List Todo) :=
  let previousTodos := cache
  (cache.map (fun old => old.filter (fun t => !(t.id == todoId))),
   previousTodos)

/-- `useDeleteTodo.onError`: restore the snapshot only when defined. -/
def useDeleteTodo_onError (cache snapshot : Option (List Todo)) :
    Option (List Todo) :=
  match snapshot with
  | some prev => some prev
  | none => cache

def useDeleteTodo_failRun (cache : Option (List Todo)) (todoId : String) :
    Option (List Todo) :=
  let s := useDeleteTodo_onMutate cache todoId
  useDeleteTodo_onError s.1 s.2

/-! ### Goal mutations (src/hooks/useGoals.ts) -/

/-- `useAddGoal.onMutate`: snapshot, then prepend a provisional goal
`{id: tempId, title, currentPercent: 0, createdAt: now}`. -/
def useAddGoal_onMutate (cache : Option (List Goal)) (title : String)
    (tempId : String) (now : Nat) : Option (List Goal) × Option (List Goal) :=
  let previousGoals := cache
  let newGoal : Goal := ⟨tempId, title, 0, now⟩
  (some (match cache with
    | some old => newGoal :: old
    | none => [newGoal]), previousGoals)

/-- `useAddGoal.onError`: restore the snapshot only when defined. -/
def useAddGoal_onError (cache snapshot : Option (List Goal)) :
    Option (List Goal) :=
  match snapshot with
  | some prev => some prev
  | none => cache

def useAddGoal_failRun (cache : Option (List Goal)) (title : String)
    (tempId : String) (now : Nat) : Option (List Goal) :=
  let s := useAddGoal_onMutate cache title tempId now
  useAddGoal_onError s.1 s.2

/-- `useDeleteGoal.onMutate`: snapshot, then filter the goal out. -/
def useDeleteGoal_onMutate (cache : Option (List Goal)) (goalId : String) :
    Option (List Goal) × Option (List Goal) :=
  let previousGoals := cache
  (cache.map (fun old => old.filter (fun g => !(g.id == goalId))),
   previousGoals)

/-- `useDeleteGoal.onError`: restore the snapshot only when defined. -/
def useDeleteGoal_onError (cache snapshot : Option (List Goal)) :
    Option (List Goal) :=
  match snapshot with
  | some prev => some prev
  | none => cache

def useDeleteGoal_failRun (cache : Option (List Goal)) (goalId : String) :
    Option (List Goal) :=
  let s := useDeleteGoal_onMutate cache goalId
  useDeleteGoal_onError s.1 s.2

/-! ### Daily-log mutations (src/hooks/useDailyTracker.ts)

All three mutations address the cache keyed by the log's month; the snapshot
and the restore use the same month key, so a single cached list models the
collection. -/

/-- The partial-update payload of `updateDailyLog`
(`Partial<Pick<DailyLog, "durationMinutes" | "notes" | "date">>`): a `none`
field is an absent key, left unchanged by the object spread. -/
structure DailyLogUpdates where
  durationMinutes : Option ℚ
  notes : Option (Option String)
  date : Option String

/-- `{ ...log, ...updates }`. -/
def applyDailyLogUpdates (log : DailyLog) (u : DailyLogUpdates) : DailyLog :=
  { log with
    durationMinutes := u.durationMinutes.getD log.durationMinutes
    notes := u.notes.getD log.notes
    date := u.date.getD log.date }

/-- `useAddDailyLog.onMutate`: snapshot, then append a provisional log
(`[...old, newLog]`, creating a one-element list when the cache was empty).
The source re-coerces `durationMinutes` through `Number(...)`, the identity
on a number. -/
def useAddDailyLog_onMutate (cache : Option (List DailyLog))
    (payload : DailyLog) (tempId : String) (now : Nat) :
    Option (List DailyLog) × Option (List DailyLog) :=
  let previousLogs := cache
  let newLog : DailyLog :=
    { payload with id := tempId, createdAt := now }
  (some (match cache with
    | some old => old ++ [newLog]
    | none => [newLog]), previousLogs)

/-- `useAddDailyLog.onError`: restore the snapshot only when defined. -/
def useAddDailyLog_onError (cache snapshot : Option (List DailyLog)) :
    Option (List DailyLog) :=
  match snapshot with
  | some prev => some prev
  | none => cache

def useAddDailyLog_failRun (cache : Option (List DailyLog))
    (payload : DailyLog) (tempId : String) (now : Nat) :
    Option (List DailyLog) :=
  let s := useAddDailyLog_onMutate cache payload tempId now
  useAddDailyLog_onError s.1 s.2

/-- `useUpdateDailyLog.onMutate`: snapshot, then merge the updates into the
matching log in place. -/
def useUpdateDailyLog_onMutate (cache : Option (List DailyLog))
    (logId : String) (updates : DailyLogUpdates) :
    Option (List DailyLog) × Option (List DailyLog) :=
  let previousLogs := cache
  (cache.map (fun old =>
    old.map (fun log =>
      if log.id == logId then applyDailyLogUpdates log updates else log)),
   previousLogs)

/-- `useUpdateDailyLog.onError`: restore the snapshot only when defined. -/
def useUpdateDailyLog_onError (cache snapshot : Option (List DailyLog)) :
    Option (List DailyLog) :=
  match snapshot with
  | some prev => some prev
  | none => cache

def useUpdateDailyLog_failRun (cache : Option (List DailyLog))
    (logId : String) (updates : DailyLogUpdates) : Option (List DailyLog) :=
  let s := useUpdateDailyLog_onMutate cache logId updates
  useUpdateDailyLog_onError s.1 s.2

/-- `useDeleteDailyLog.onMutate`: snapshot, then filter the log out. -/
def useDeleteDailyLog_onMutate (cache : Option (List DailyLog))
    (logId : String) : Option (List DailyLog) × Option (List DailyLog) :=
  let previousLogs := cache
  (cache.map (fun old => old.filter (fun log => !(log.id == logId))),
   previousLogs)

/-- `useDeleteDailyLog.onError`: restore the snapshot only when defined. -/
def useDeleteDailyLog_onError (cache snapshot : Option (List DailyLog)) :
    Option (List DailyLog) :=
  match snapshot with
  | some prev => some prev
  | none => cache

def useDeleteDailyLog_failRun (cache : Option (List DailyLog))
    (logId : String) : Option (List DailyLog) :=
  let s := useDeleteDailyLog_onMutate cache logId
  useDeleteDailyLog_onError s.1 s.2

/-! ### Daily Tracker page validation (src/pages/DailyTrackerPage.tsx) -/

/-- A JavaScript number as `handleAddLog` distinguishes them: `NaN`, the two
infinities, or a finite value. -/
inductive JSNum where
  | nan
  | posInf
  | negInf
  | finite (q : ℚ)
deriving DecidableEq

/-- `Number.isFinite`. -/
def JSNum.isFinite : JSNum → Bool
  | JSNum.finite _ => true
  | _ => false

/-- The JS comparison `minutes <= 0` (false for `NaN`). -/
def JSNum.leZero : JSNum → Bool
  | JSNum.nan => false
  | JSNum.posInf => false
  | JSNum.negInf => true
  | JSNum.finite q => decide (q ≤ 0)

/-- The payload `handleAddLog` hands to `addDailyLog.mutate`. -/
structure DailyLogInput where
  activityId : String
  activityName : String
  date : String
  durationMinutes : ℚ
  notes : Option String
deriving DecidableEq

/-- `handleAddLog` from the Daily Tracker page.  `number` stands for the JS
`Number(...)` conversion applied to the raw duration input string; the guards
are, in source order: falsy activity id or duration string, unknown or falsy
activity name, then `!Number.isFinite(minutes) || minutes <= 0`.  Returns the
mutation payload, or `none` when the handler returns without persisting. -/
def handleAddLog (number : String → JSNum)
    (activityMap : String → Option String) (selectedActivityId : String)
    (durationMinutes : String) (notes : String) (selectedDate : String) :
    Option DailyLogInput :=
  if selectedActivityId == "" || durationMinutes == "" then none
  else
    let activityName := activityMap selectedActivityId
    if isFalsyId activityName then none
    else
      let minutes := number durationMinutes
      if !minutes.isFinite || minutes.leZero then none
      else
        match minutes, activityName with
        | JSNum.finite q, some name =>
          some ⟨selectedActivityId, name, selectedDate, q,
            if notes.trim == "" then none else some notes.trim⟩
        | _, _ => none

/-- Relation between a pre-commit record and its post-commit counterpart for
the single add-todo commit: only a record whose id is the temporary id
changes, and only in its id field. -/
def addTodoCommitRel (tempId serverId : String) (t t2 : Todo) : Prop :=
  t2.title = t.title ∧ t2.isDone = t.isDone ∧ t2.goalId = t.goalId ∧
    t2.createdAt = t.createdAt ∧
    (t.id = tempId → t2.id = serverId) ∧
    (t.id ≠ tempId → t2.id = t.id)

/-- Relation between a pre-commit record and its post-commit counterpart for
the bulk commit: a record holding the `j`-th temporary id receives the `j`-th
server id, every other record and every other field is unchanged. -/
def bulkCommitRel (tempIds serverIds : List String) (t t2 : Todo) : Prop :=
  t2.title = t.title ∧ t2.isDone = t.isDone ∧ t2.goalId = t.goalId ∧
    t2.createdAt = t.createdAt ∧
    (t.id ∉ tempIds → t2.id = t.id) ∧
    (∀ j, tempIds.findIdx? (fun x => x == t.id) = some j →
      ∃ hj : j < serverIds.length, t2.id = serverIds.get ⟨j, hj⟩)

/-! ### Claims about the mutation layer and the page validation -/

/-- Claim C5: for every number passed to `updateGoalProgress`, the value
written to the goal's `currentPercent` lies in `[0, 100]`. -/
theorem c5_written_percent_in_range (g : Goal) (newPercent : ℚ) :
    0 ≤ (updateGoalProgress g newPercent).currentPercent ∧
      (updateGoalProgress g newPercent).currentPercent ≤ 100 := by
  unfold updateGoalProgress clampedPercent
  refine ⟨le_max_left 0 _, ?_⟩
  exact max_le (by norm_num) (min_le_left _ _)

/-- Claim C10: when no cached todos list existed at `onMutate` time (the
captured snapshot is `none`), a failed add-todo restores nothing — the
provisional record with the temporary id remains the whole cached list.  The
restore itself (see the rollback law) runs only when the snapshot is
defined. -/
theorem c10_missing_snapshot_keeps_provisional (title : String)
    (goalId : Option String) (tempId : String) (now : Nat) :
    useAddTodo_failRun none title goalId tempId now =
      some [⟨tempId, title, false, goalId, now⟩] := rfl

/-- Claim C3, as stated, is false on the code: for an add-style mutation
issued against an unpopulated cache the error handler skips the restore
(`if (context?.previousTodos)`), so the cache after the failure run — now
holding the provisional record — differs from the pre-mutation cache. -/
theorem c3_counterexample :
    useAddTodo_failRun none "t" none "tmp1" 0 ≠ (none : Option (List Todo)) := by
  decide

/-- Claim C3 (amended): if a mutation's remote call fails, the cache after
the error handler equals the cache from immediately before the optimistic
update — unconditionally for the in-place mutations (toggle todo, delete
todo, delete goal, update daily log, delete daily log), and for the add-style
mutations (add goal, add todo, bulk add todos, add daily log) provided a
cached collection existed when the snapshot was captured. -/
theorem c3_rollback_restores_cache :
    (∀ (prev : List Goal) (title tempId : String) (now : Nat),
      useAddGoal_failRun (some prev) title tempId now = some prev) ∧
    (∀ (prev : List Todo) (title : String) (goalId : Option String)
      (tempId : String) (now : Nat),
      useAddTodo_failRun (some prev) title goalId tempId now = some prev) ∧
    (∀ (prev : List Todo) (titles : List String) (goalId : Option String)
      (tempIds : List String) (now : Nat),
      useAddTodosBulk_failRun (some prev) titles goalId tempIds now
        = some prev) ∧
    (∀ (cache : Option (List Todo)) (todoId : String) (isDone : Bool),
      useToggleTodo_failRun cache todoId isDone = cache) ∧
    (∀ (cache : Option (List Todo)) (todoId : String),
      useDeleteTodo_failRun cache todoId = cache) ∧
    (∀ (cache : Option (List Goal)) (goalId : String),
      useDeleteGoal_failRun cache goalId = cache) ∧
    (∀ (prev : List DailyLog) (payload : DailyLog) (tempId : String)
      (now : Nat),
      useAddDailyLog_failRun (some prev) payload tempId now = some prev) ∧
    (∀ (cache : Option (List DailyLog)) (logId : String)
      (u : DailyLogUpdates),
      useUpdateDailyLog_failRun cache logId u = cache) ∧
    (∀ (cache : Option (List DailyLog)) (logId : String),
      useDeleteDailyLog_failRun cache logId = cache) := by
  refine ⟨?_, ?_, ?_, ?_, ?_, ?_, ?_, ?_, ?_⟩
  · intro prev title tempId now
    rfl
  · intro prev title goalId tempId now
    rfl
  · intro prev titles goalId tempIds now
    rfl
  · intro cache todoId isDone
    cases cache <;> rfl
  · intro cache todoId
    cases cache <;> rfl
  · intro cache goalId
    cases cache <;> rfl
  · intro prev payload tempId now
    rfl
  · intro cache logId u
    cases cache <;> rfl
  · intro cache logId
    cases cache <;> rfl

/-- Claim C4: commit law.  For the single add, the record holding the
temporary id gets the server id and nothing else changes; for the bulk add
(with one server id per temporary id), each record holding the `j`-th
temporary id gets the `j`-th server id and nothing else changes.
`List.Forall₂` ties each pre-commit record to the post-commit record at the
same position, so in particular the list length is unchanged. -/
theorem c4_commit_replaces_temp_ids :
    (∀ (l : List Todo) (tempId serverId : String),
      ∃ l2, useAddTodo_onSuccess (some l) tempId serverId = some l2 ∧
        List.Forall₂ (addTodoCommitRel tempId serverId) l l2) ∧
    (∀ (l : List Todo) (tempIds serverIds : List String),
      tempIds.length = serverIds.length →
      ∃ l2, useAddTodosBulk_onSuccess (some l) tempIds serverIds = some l2 ∧
        List.Forall₂ (bulkCommitRel tempIds serverIds) l l2) := by
  constructor
  · intro l tempId serverId
    refine ⟨_, rfl, ?_⟩
    rw [List.forall₂_map_right_iff]
    rw [List.forall₂_same]
    intro t _
    by_cases h : t.id = tempId
    · simp only [h, beq_self_eq_true, if_true]
      exact ⟨rfl, rfl, rfl, rfl, fun _ => rfl, fun hne => absurd h hne⟩
    · have hb : (t.id == tempId) = false := by simp [h]
      simp only [hb, Bool.false_eq_true, if_false]
      exact ⟨rfl, rfl, rfl, rfl, fun he => absurd he h, fun _ => rfl⟩
  · intro l tempIds serverIds hlen
    refine ⟨_, rfl, ?_⟩
    rw [List.forall₂_map_right_iff]
    rw [List.forall₂_same]
    intro t _
    refine ⟨rfl, rfl, rfl, rfl, ?_, ?_⟩
    · intro hnotmem
      have hnone : tempIds.findIdx? (fun x => x == t.id) = none := by
        rw [List.findIdx?_eq_none_iff]
        intro x hx
        by_cases hxe : x = t.id
        · exact absurd (hxe ▸ hx) hnotmem
        · simp [hxe]
      simp [bulkNewId, hnone]
    · intro j hj
      have hjlt : j < tempIds.length :=
        (List.findIdx?_eq_some_iff_findIdx_eq.mp hj).1
      have hjlt2 : j < serverIds.length := hlen ▸ hjlt
      refine ⟨hjlt2, ?_⟩
      simp only [bulkNewId, hj]
      exact List.getD_eq_getElem serverIds t.id hjlt2

/-- Claim C2 (amended): when a toggle-todo mutation for a goal-linked todo
succeeds, the percent pushed through `updateGoalProgress` is the count-based
ratio `Math.round((done/total)*100)` as IEEE binary64 arithmetic evaluates
it (`jsRound100`) over the cached todos whose `goalId` equals the goal — not
a flat ±5 delta on the stored `currentPercent` (the pushed value depends
only on the cached todo counts).  The amendment replaces the claim's exact
rounding `round(100*done/total)` by the program's double rounding; the two
differ at, e.g., 23 done of 40 (57 vs 58, see the counterexample). -/
theorem c2_toggle_pushes_count_ratio (cache : List Todo) (todoId gid : String)
    (p : Nat)
    (h : useToggleTodo_onSuccess (some cache) todoId = some (gid, p)) :
    0 < cache.countP (fun t => t.goalId == some gid) ∧
      p = jsRound100
        (cache.countP (fun t => t.goalId == some gid && t.isDone))
        (cache.countP (fun t => t.goalId == some gid)) := by
  unfold useToggleTodo_onSuccess at h
  cases hfind : cache.find? (fun t => t.id == todoId) with
  | none =>
    simp only [hfind] at h
    simp [calculateGoalPercent] at h
  | some t0 =>
    simp only [hfind] at h
    cases hgoal : t0.goalId with
    | none =>
      rw [hgoal] at h
      simp [calculateGoalPercent] at h
    | some gid0 =>
      rw [hgoal] at h
      have ht0mem : t0 ∈ cache := List.mem_of_find?_eq_some hfind
      have ht0fil : t0 ∈ cache.filter (fun t => t.goalId == some gid0) :=
        List.mem_filter.mpr ⟨ht0mem, by simp [hgoal]⟩
      have hlenpos : 0 < (cache.filter (fun t => t.goalId == some gid0)).length :=
        List.length_pos.mpr (List.ne_nil_of_mem ht0fil)
      by_cases hg0 : (gid0 == "") = true
      · simp [calculateGoalPercent, hg0] at h
      · have hg0f : (gid0 == "") = false := by simpa using hg0
        have hlen : (cache.filter (fun t => t.goalId == some gid0)).length ≠ 0 := by
          omega
        simp only [calculateGoalPercent, hg0f, Bool.false_eq_true, if_false,
          hlen, if_neg hlen] at h
        obtain ⟨hgid, hp⟩ : gid0 = gid ∧
            jsRound100
              ((cache.filter (fun t => t.goalId == some gid0)).filter
                (fun t => t.isDone)).length
              (cache.filter (fun t => t.goalId == some gid0)).length = p := by
          constructor
          · exact congrArg Prod.fst (Option.some.inj h)
          · exact congrArg Prod.snd (Option.some.inj h)
        subst hgid
        have htotal : cache.countP (fun t => t.goalId == some gid0) =
            (cache.filter (fun t => t.goalId == some gid0)).length :=
          List.countP_eq_length_filter _ cache
        have hdone : cache.countP (fun t => t.goalId == some gid0 && t.isDone) =
            ((cache.filter (fun t => t.goalId == some gid0)).filter
              (fun t => t.isDone)).length := by
          rw [← List.countP_eq_length_filter, List.countP_filter]
          refine List.countP_congr ?_
          intro t _
          constructor
          · intro hcond
            rw [Bool.and_comm] at hcond
            exact hcond
          · intro hcond
            rw [Bool.and_comm] at hcond
            exact hcond
        constructor
        · rw [htotal]
          exact hlenpos
        · rw [htotal, hdone]
          exact hp.symm

/-- Claim C2, as stated, is false on the code: with 40 cached todos linked
to goal `g1` of which 23 are done, toggling one of them pushes the IEEE
double result `57`, while the claim's exact count-based ratio
`round(100*23/40)` is `58`. -/
theorem c2_counterexample :
    useToggleTodo_onSuccess
        (some ((⟨"d1", "d", true, some "g1", 0⟩ : Todo) ::
          (List.replicate 22 (⟨"d2", "d", true, some "g1", 0⟩ : Todo) ++
           List.replicate 17 (⟨"u1", "u", false, some "g1", 0⟩ : Todo))))
        "d1" = some ("g1", 57) ∧
      Nat.floor ((100 * (23 : ℚ)) / 40 + 1 / 2) = 58 := by
  constructor
  · decide
  · rw [show (100 * (23 : ℚ)) / 40 + 1 / 2 = ((58 : ℕ) : ℚ) by
      push_cast; norm_num]
    exact Nat.floor_natCast 58

/-- Witness for C2: a cache with one done todo linked to goal `g1`; toggling
it pushes `(g1, 100)`. -/
theorem c2_witness :
    0 < List.countP (fun t => t.goalId == some "g1")
        ([⟨"t1", "a", true, some "g1", 0⟩] : List Todo) ∧
      100 = jsRound100
        (List.countP (fun t => t.goalId == some "g1" && t.isDone)
          ([⟨"t1", "a", true, some "g1", 0⟩] : List Todo))
        (List.countP (fun t => t.goalId == some "g1")
          ([⟨"t1", "a", true, some "g1", 0⟩] : List Todo)) :=
  c2_toggle_pushes_count_ratio [⟨"t1", "a", true, some "g1", 0⟩] "t1" "g1" 100
    (by decide)

/-- Claim C8: the add-daily-log submission handler issues the persistence
call only when `Number(duration)` is finite and strictly positive — the
persisted `durationMinutes` is that value — and inputs parsing to `NaN` or to
a non-positive number make the handler return without any call. -/
theorem c8_duration_validated (number : String → JSNum)
    (activityMap : String → Option String)
    (selId dur notes date : String) :
    (∀ payload, handleAddLog number activityMap selId dur notes date
        = some payload →
      ∃ q, number dur = JSNum.finite q ∧ 0 < q ∧
        payload.durationMinutes = q) ∧
    (number dur = JSNum.nan →
      handleAddLog number activityMap selId dur notes date = none) ∧
    (∀ q, number dur = JSNum.finite q → q ≤ 0 →
      handleAddLog number activityMap selId dur notes date = none) := by
  unfold handleAddLog
  by_cases h1 : (selId == "" || dur == "") = true
  · rw [if_pos h1]
    exact ⟨fun payload hp => Option.noConfusion hp, fun _ => rfl,
      fun _ _ _ => rfl⟩
  · rw [if_neg h1]
    cases hm : activityMap selId with
    | none =>
      exact ⟨fun payload hp => Option.noConfusion hp, fun _ => rfl,
        fun _ _ _ => rfl⟩
    | some name =>
      simp only []
      by_cases h2 : (name == "") = true
      · rw [if_pos (show isFalsyId (some name) = true from by
          simpa [isFalsyId] using h2)]
        exact ⟨fun payload hp => Option.noConfusion hp, fun _ => rfl,
          fun _ _ _ => rfl⟩
      · rw [if_neg (show ¬isFalsyId (some name) = true from by
          simp [isFalsyId, h2])]
        cases hn : number dur with
        | nan =>
          refine ⟨?_, ?_, ?_⟩
          · intro payload hp
            simp [JSNum.isFinite, JSNum.leZero] at hp
          · intro _
            simp [JSNum.isFinite, JSNum.leZero]
          · intro q hq
            exact absurd hq (by simp)
        | posInf =>
          refine ⟨?_, ?_, ?_⟩
          · intro payload hp
            simp [JSNum.isFinite, JSNum.leZero] at hp
          · intro _
            simp [JSNum.isFinite, JSNum.leZero]
          · intro q hq
            exact absurd hq (by simp)
        | negInf =>
          refine ⟨?_, ?_, ?_⟩
          · intro payload hp
            simp [JSNum.isFinite, JSNum.leZero] at hp
          · intro _
            simp [JSNum.isFinite, JSNum.leZero]
          · intro q hq
            exact absurd hq (by simp)
        | finite q0 =>
          refine ⟨?_, ?_, ?_⟩
          · intro payload hp
            by_cases hle : q0 ≤ 0
            · simp [JSNum.isFinite, JSNum.leZero, hle] at hp
            · simp only [JSNum.isFinite, JSNum.leZero, Bool.not_true,
                Bool.false_or, decide_eq_true_eq] at hp
              rw [if_neg (by simpa using hle)] at hp
              refine ⟨q0, rfl, lt_of_not_ge hle, ?_⟩
              exact
                (congrArg DailyLogInput.durationMinutes
                  (Option.some.inj hp)).symm
          · intro hq
            exact absurd hq (by simp)
          · intro q hq hle
            have hq2 : q0 = q := by
              injection hq
            subst hq2
            simp [JSNum.isFinite, JSNum.leZero, hle]

/-- Witness for C8: a valid submission with duration parsing to 30. -/
theorem c8_witness :
    ∃ q, (fun _ : String => JSNum.finite 30) "30" = JSNum.finite q ∧ 0 < q ∧
      DailyLogInput.durationMinutes
        ⟨"a1", "Run", "2026-01-01", 30,
          if (String.trim "" == "") = true then none
          else some (String.trim "")⟩ = q :=
  (c8_duration_validated (fun _ => JSNum.finite 30) (fun _ => some "Run")
      "a1" "30" "" "2026-01-01").1
    ⟨"a1", "Run", "2026-01-01", 30,
      if (String.trim "" == "") = true then none
      else some (String.trim "")⟩ rfl

/-- Witness for C4: one pre-commit record holding the only temporary id. -/
theorem c4_witness :
    ∃ l2, useAddTodosBulk_onSuccess (some [⟨"tmpA", "a", false, none, 7⟩])
        ["tmpA"] ["srvA"] = some l2 ∧
      List.Forall₂ (bulkCommitRel ["tmpA"] ["srvA"])
        [⟨"tmpA", "a", false, none, 7⟩] l2 :=
  c4_commit_replaces_temp_ids.2 [⟨"tmpA", "a", false, none, 7⟩]
    ["tmpA"] ["srvA"] (by decide)

end GoalsTodoApp
